import Mathlib

/-!
Verification of the ehecatl enterprise-registration application.

Shallow embedding of the data model (app/models.py), the form validators
(app/forms.py) and the request handlers (app/routes.py).  Database rows are
modelled as Lean structures, the database as lists of rows, and each handler
as a pure function from the database (plus request data) to a result and a
new database.  Machine-level concerns that the claims do not touch (UUID
generation, real timestamps, password hashing, the session cookie) are
modelled abstractly: UUIDs and timestamps as naturals, the hash check as an
abstract boolean function.  String operations mirror the Python ones over
the ASCII range (the regular-expression character classes [A-Z] and \w, and
str.lower, are modelled for ASCII data, which is the range the ticker
symbols and value tags live in).
-/

deriving instance DecidableEq for Except

namespace Ehecatl

/-! ### Data model, from app/models.py -/

/-- Row of the users table (class User, models.py). -/
structure User where
  user_id : Nat
  username : String
  email : String
  password_hash : String
  about_me : String
  last_seen : Nat
deriving Repr, DecidableEq

/-- Row of the values_table table (class Value, models.py). -/
structure Value where
  value_id : Nat
  name : String
  timestamp : Nat
deriving Repr, DecidableEq

/-- Row of the enterprises table (class Enterprise, models.py).  The
many-to-many association table values_enterprises is embedded as the list
of associated value ids, mirroring the relationship attribute. -/
structure Enterprise where
  enterprise_id : Nat
  name : String
  description : String
  symbol : String
  timestamp : Nat
  user_id : Nat
  values : List Nat
deriving Repr, DecidableEq

/-- The whole relational state: the three tables. -/
structure DB where
  users : List User
  enterprises : List Enterprise
  values : List Value
deriving Repr, DecidableEq

def emptyDB : DB := { users := [], enterprises := [], values := [] }

/-! ### String helpers modelling the Python primitives -/

/-- Python str.lower, modelled over the ASCII range: every character is
lowered with Char.toLower (which maps A-Z to a-z and fixes everything
else). -/
def lowerString (s : String) : String := ⟨s.data.map Char.toLower⟩

/-- Python str.strip with no argument, over the ASCII whitespace range:
drop whitespace from both ends. -/
def pyStrip (s : String) : String :=
  ⟨((s.data.dropWhile Char.isWhitespace).reverse.dropWhile Char.isWhitespace).reverse⟩

/-- Scanner of pySplit: walk the input, and at every position where the
separator is a prefix, emit the accumulated token and skip the separator.
The fuel argument only makes the recursion structural; it is always at
least the length of the remaining input plus one, so the zero case is
never reached. -/
def splitChars (sep : List Char) : Nat → List Char → List Char → List (List Char)
  | 0, l, acc => [acc.reverse ++ l]
  | fuel + 1, l, acc =>
    match l with
    | [] => [acc.reverse]
    | c :: cs =>
      if sep.isPrefixOf (c :: cs) then
        acc.reverse :: splitChars sep fuel (List.drop sep.length (c :: cs)) []
      else
        splitChars sep fuel cs (c :: acc)

/-- Python str.split with an explicit separator: split at every occurrence
of the separator, keeping empty tokens. -/
def pySplit (s separator : String) : List String :=
  (splitChars separator.data (s.data.length + 1) s.data []).map (fun cs => ⟨cs⟩)

/-- Character class \w of the Python regular-expression module, over the
ASCII range: letters, digits and the underscore. -/
def isWordChar (c : Char) : Bool := c.isAlphanum || c == '_'

/-- Result of re.match with the pattern \b[A-Z]{3}\b[.!?]? from
EnterpriseForm.validate_symbol (forms.py line 137).  re.match anchors at
the start of the string only.  The leading word boundary holds at position
zero exactly when the first character is a word character, which is implied
by it being an uppercase letter; the trailing word boundary after the three
letters holds exactly when the string ends there or its fourth character is
not a word character; the optional [.!?]? can always match the empty
string, so it never blocks a match.  Hence the match succeeds exactly
when the first three characters are uppercase letters and the fourth
character, when present, is not a word character. -/
def symbolRegexMatch (s : String) : Bool :=
  match s.data with
  | c0 :: c1 :: c2 :: rest =>
    c0.isUpper && c1.isUpper && c2.isUpper &&
    (match rest with
     | [] => true
     | c3 :: _ => !(isWordChar c3))
  | _ => false

/-! ### Validation errors (section 7 taxonomy of the documentation) -/

inductive ValidationError where
  | externalConflict
  | duplicateValue
  | formatError
  | lengthError
deriving Repr, DecidableEq

/-- Test of an Except value for success. -/
def exceptOk (r : Except ValidationError Unit) : Bool :=
  match r with
  | .ok _ => true
  | .error _ => false

/-! ### Form validators, from app/forms.py -/

/-- EnterpriseForm.validate_name (forms.py lines 140-149): reject when any
existing enterprise already uses the candidate name. -/
def EnterpriseForm.validate_name (db : DB) (name : String) : Except ValidationError Unit :=
  if (db.enterprises.find? (fun e => e.name == name)).isSome then
    .error .duplicateValue
  else
    .ok ()

/-- EnterpriseForm.validate_symbol (forms.py lines 124-138): first the
membership test against the external exchange-symbol reference set
(nyse_symbols), then the duplicate test against existing enterprises, then
the regular-expression format test. -/
def EnterpriseForm.validate_symbol (nyse : List String) (db : DB) (symbol : String) :
    Except ValidationError Unit :=
  if symbol ∈ nyse then
    .error .externalConflict
  else if (db.enterprises.find? (fun e => e.symbol == symbol)).isSome then
    .error .duplicateValue
  else if symbolRegexMatch symbol then
    .ok ()
  else
    .error .formatError

/-- EditEnterpriseForm.validate_name (forms.py lines 165-175): the checks
run only when the candidate differs from the original name of the
enterprise being edited (self-exclusion). -/
def EditEnterpriseForm.validate_name (db : DB) (original_name name : String) :
    Except ValidationError Unit :=
  if name ≠ original_name then
    if (db.enterprises.find? (fun e => e.name == name)).isSome then
      .error .duplicateValue
    else
      .ok ()
  else
    .ok ()

/-- EditEnterpriseForm.validate_symbol (forms.py lines 177-194): the three
checks of the creation form, run only when the candidate differs from the
original symbol of the enterprise being edited (self-exclusion). -/
def EditEnterpriseForm.validate_symbol (nyse : List String) (db : DB)
    (original_symbol symbol : String) : Except ValidationError Unit :=
  if symbol ≠ original_symbol then
    if symbol ∈ nyse then
      .error .externalConflict
    else if (db.enterprises.find? (fun e => e.symbol == symbol)).isSome then
      .error .duplicateValue
    else if symbolRegexMatch symbol then
      .ok ()
    else
      .error .formatError
  else
    .ok ()

/-! ### The comma-separated values field, from app/forms.py -/

/-- ValueListField._remove_duplicates (forms.py lines 101-108): keep the
first occurrence of every item, where two items are the same when their
lower-cased forms agree; seen accumulates the lower-cased keys already
yielded. -/
def ValueListField.remove_duplicates_go (seen : List String) : List String → List String
  | [] => []
  | x :: xs =>
    if lowerString x ∈ seen then
      ValueListField.remove_duplicates_go seen xs
    else
      x :: ValueListField.remove_duplicates_go (lowerString x :: seen) xs

def ValueListField.remove_duplicates (seq : List String) : List String :=
  ValueListField.remove_duplicates_go [] seq

/-- ValueListField.process_formdata (forms.py lines 93-99), with the flags
the EnterpriseForm uses (remove_duplicates and to_lowercase both true):
split the raw string on the separator, strip each token, remove
case-insensitive duplicates keeping first occurrences, then lower-case. -/
def ValueListField.process_formdata (raw separator : String) : List String :=
  (ValueListField.remove_duplicates ((pySplit raw separator).map pyStrip)).map lowerString

/-- Length validator attached to the values field (forms.py line 120):
Length(max=10) fails exactly when the list holds more than ten entries. -/
def valuesLengthValidator (data : List String) : Except ValidationError Unit :=
  if data.length ≤ 10 then .ok () else .error .lengthError

/-- Pipeline of normalize_values_list as the documentation words it: split
on the separator, trim each token, lower-case, then remove case-insensitive
duplicates keeping the first occurrence.  Stated separately from
ValueListField.process_formdata (which lower-cases after deduplicating) so
the two can be compared. -/
def normalize_values_list_spec (raw separator : String) : List String :=
  ValueListField.remove_duplicates (((pySplit raw separator).map pyStrip).map lowerString)

/-! ### Listing and pagination, from app/models.py and app/routes.py -/

/-- Insertion step of ordering by timestamp descending. -/
def insertDesc (e : Enterprise) : List Enterprise → List Enterprise
  | [] => [e]
  | x :: xs => if e.timestamp ≤ x.timestamp then x :: insertDesc e xs else e :: x :: xs

/-- Ordering of a list of enterprise rows by timestamp descending,
modelling order_by(Enterprise.timestamp.desc()). -/
def orderByTimestampDesc : List Enterprise → List Enterprise
  | [] => []
  | x :: xs => insertDesc x (orderByTimestampDesc xs)

/-- User.get_all_enterprises (models.py lines 88-95).  The method receives
the user as self but the query it issues is Enterprise.query ordered by
timestamp descending, with no filter on the owning user, so the argument
is unused, exactly as in the source. -/
def User.get_all_enterprises (db : DB) (_self : User) : List Enterprise :=
  orderByTimestampDesc db.enterprises

/-- Pagination record, modelling flask_sqlalchemy Pagination as used by the
index handler (routes.py lines 46-49). -/
structure PageOf (α : Type) where
  items : List α
  has_next : Bool
  has_prev : Bool
deriving Repr, DecidableEq

/-- Query.paginate(page, per_page, False): the items are the slice
offset (page-1)*per_page limit per_page, there is a next page exactly when
page * per_page is below the total count, and a previous page exactly when
page is above one. -/
def paginate {α : Type} (l : List α) (page per_page : Nat) : PageOf α :=
  { items := (l.drop ((page - 1) * per_page)).take per_page
    has_next := decide (page * per_page < l.length)
    has_prev := decide (1 < page) }

/-! ### The login handler, from app/routes.py -/

/-- Message flashed by the login handler on any failed attempt
(routes.py line 73). -/
def invalidCredentialsMessage : String := "Usuario y/o contraseña invàlidos"

/-- Outcome of a login attempt: the flashed message, when any, and the
user id the session was bound to, when authentication succeeded. -/
structure LoginOutcome where
  flash : Option String
  logged_in : Option Nat
deriving Repr, DecidableEq

/-- Login handler (routes.py lines 60-80), successful-validation path.
The user row is looked up by username; when the row is missing or the
password check fails, the one generic message is flashed and nothing else
happens; otherwise the session is bound to the user.  The password check
of werkzeug (check_password_hash) is abstracted as the boolean function
checkHash applied to the stored hash and the submitted password.  The
returned DB is the state after the request. -/
def login (db : DB) (checkHash : String → String → Bool) (username password : String) :
    LoginOutcome × DB :=
  match db.users.find? (fun u => u.username == username) with
  | none => ({ flash := some invalidCredentialsMessage, logged_in := none }, db)
  | some u =>
    if checkHash u.password_hash password then
      ({ flash := none, logged_in := some u.user_id }, db)
    else
      ({ flash := some invalidCredentialsMessage, logged_in := none }, db)

/-! ### Enterprise creation, from app/routes.py -/

/-- Value-resolution loop of the index handler (routes.py lines 35-39):
for each submitted value name, look the name up in the values table; when
a row exists it is reused, otherwise a new row is created.  Lookups run
against the table as it was when the request started (newly created rows
are not in the session yet when later names are looked up).  Returns the
newly created rows, the association list of value ids for the new
enterprise, and the next fresh surrogate id. -/
def resolveValues (table : List Value) (next_id now : Nat) :
    List String → List Value × List Nat × Nat
  | [] => ([], [], next_id)
  | n :: ns =>
    match table.find? (fun v => v.name == n) with
    | some v =>
      let r := resolveValues table next_id now ns
      (r.1, v.value_id :: r.2.1, r.2.2)
    | none =>
      let r := resolveValues table (next_id + 1) now ns
      (⟨next_id, n, now⟩ :: r.1, next_id :: r.2.1, r.2.2)

/-- Successful-creation path of the index handler (routes.py lines 30-44):
build the enterprise row owned by the current user, resolve or create each
value row, append the association ids, and commit everything. -/
def index_create (db : DB) (current_user : User)
    (name description symbol : String) (value_names : List String)
    (eid now next_value_id : Nat) : DB :=
  let r := resolveValues db.values next_value_id now value_names
  { db with
    values := db.values ++ r.1
    enterprises := db.enterprises ++
      [{ enterprise_id := eid, name := name, description := description,
         symbol := symbol, timestamp := now, user_id := current_user.user_id,
         values := r.2.1 }] }

/-! ### Enterprise edit and delete handlers, from app/routes.py -/

/-- Fault raised by a handler outside the validation taxonomy: the
undefined-attribute fault Python raises when an attribute of None is
accessed. -/
inductive HandlerFault where
  | attributeError
deriving Repr, DecidableEq

/-- DataRequired validator of wtforms on a string field: fails when the
string is empty or whitespace only. -/
def dataRequired (s : String) : Bool := !(pyStrip s == "")

/-- Length(min, max) validator of wtforms on a string field. -/
def lengthBetween (lo hi : Nat) (s : String) : Bool :=
  decide (lo ≤ s.length) && decide (s.length ≤ hi)

/-- Full success condition of EditEnterpriseForm.validate_on_submit
(forms.py lines 152-194): the field validators DataRequired and Length on
name, description and symbol, then the two inline validators with
self-exclusion against the original name and symbol. -/
def EditEnterpriseForm.validate (nyse : List String) (db : DB)
    (original_name original_symbol name description symbol : String) : Bool :=
  dataRequired name && lengthBetween 1 64 name &&
  dataRequired description && lengthBetween 1 140 description &&
  dataRequired symbol && lengthBetween 1 10 symbol &&
  exceptOk (EditEnterpriseForm.validate_name db original_name name) &&
  exceptOk (EditEnterpriseForm.validate_symbol nyse db original_symbol symbol)

/-- Replacement of the first row satisfying p by its image under f,
modelling in-place mutation of the row object the query returned. -/
def updateFirstBy (p : Enterprise → Bool) (f : Enterprise → Enterprise) :
    List Enterprise → List Enterprise
  | [] => []
  | e :: es => if p e then f e :: es else e :: updateFirstBy p f es

/-- edit_enterprise handler (routes.py lines 139-166).  The target row is
looked up by name with no ownership filter; when the lookup returns
nothing, the very next line reads current_enterprise.name, which in Python
raises AttributeError on None, modelled as the attributeError fault.  On a
valid submission the three editable fields of the found row are
overwritten and committed (the boolean of the result tells whether the
submission was applied); on an invalid submission the form is re-rendered
with no change.  The authenticated requester current_user is required by
the login_required gate but never consulted by the body, exactly as in the
source. -/
def edit_enterprise (nyse : List String) (db : DB) (_current_user : User)
    (enterprise_name name description symbol : String) :
    Except HandlerFault (DB × Bool) :=
  match db.enterprises.find? (fun e => e.name == enterprise_name) with
  | none => .error .attributeError
  | some ce =>
    if EditEnterpriseForm.validate nyse db ce.name ce.symbol name description symbol then
      .ok ({ db with
              enterprises := updateFirstBy (fun e => e.name == enterprise_name)
                (fun e => { e with name := name, description := description, symbol := symbol })
                db.enterprises }, true)
    else
      .ok (db, false)

/-- delete_enterprise handler (routes.py lines 169-186).  The target row
is looked up by name with no ownership filter; when the lookup returns
nothing the session delete call dereferences None, modelled as the
attributeError fault; otherwise the found row is removed (its embedded
association ids disappear with it) and the deletion committed. -/
def delete_enterprise (db : DB) (_current_user : User) (enterprise_name : String) :
    Except HandlerFault DB :=
  match db.enterprises.find? (fun e => e.name == enterprise_name) with
  | none => .error .attributeError
  | some _ =>
    .ok { db with enterprises := db.enterprises.eraseP (fun e => e.name == enterprise_name) }

/-! ### Supporting lemmas -/

theorem char_toNat_ofNat_of_valid {n : Nat} (h : n.isValidChar) :
    (Char.ofNat n).toNat = n := by
  rw [Char.ofNat, dif_pos h]
  rfl

theorem char_toLower_idem (c : Char) : c.toLower.toLower = c.toLower := by
  by_cases h : c.toNat ≥ 65 ∧ c.toNat ≤ 90
  · have h1 : c.toLower = Char.ofNat (c.toNat + 32) := by
      simp only [Char.toLower, if_pos h]
    have hv : (c.toNat + 32).isValidChar := Or.inl (by omega)
    have ht : (Char.ofNat (c.toNat + 32)).toNat = c.toNat + 32 :=
      char_toNat_ofNat_of_valid hv
    rw [h1]
    simp only [Char.toLower, ht]
    rw [if_neg (by omega)]
  · simp only [Char.toLower, if_neg h]

theorem lowerString_idem (s : String) : lowerString (lowerString s) = lowerString s := by
  unfold lowerString
  refine congrArg String.mk ?_
  rw [List.map_map]
  exact List.map_congr_left (fun a _ => char_toLower_idem a)

theorem remove_duplicates_go_map_lower (l : List String) : ∀ seen : List String,
    (ValueListField.remove_duplicates_go seen l).map lowerString
      = ValueListField.remove_duplicates_go seen (l.map lowerString) := by
  induction l with
  | nil => intro seen; rfl
  | cons x xs ih =>
    intro seen
    simp only [List.map_cons, ValueListField.remove_duplicates_go, lowerString_idem]
    by_cases h : lowerString x ∈ seen
    · rw [if_pos h, if_pos h]
      exact ih seen
    · rw [if_neg h, if_neg h, List.map_cons]
      rw [ih (lowerString x :: seen)]

/-! ### Claim C2: symbol format acceptance -/

/-- Ticker pattern as the specification words it: the whole string is
exactly three uppercase letters. -/
def matchesTickerPattern (s : String) : Bool :=
  s.data.length == 3 && s.data.all Char.isUpper

/-- C2 counterexample: with an empty reference set and an empty database,
the symbol "ABC." is accepted by EnterpriseForm.validate_symbol although
it does not match the pattern of three uppercase letters and nothing else,
so acceptance is not exactly the pattern of the claim. -/
theorem c2_counterexample :
    EnterpriseForm.validate_symbol [] emptyDB "ABC." = .ok () ∧
    matchesTickerPattern "ABC." = false := by
  decide

/-- C2 amended: given the candidate symbol is not in the external reference
set and no existing enterprise uses it, validate_symbol accepts exactly the
strings accepted by the unanchored regular expression, namely those whose
first three characters are uppercase letters and whose fourth character,
when present, is not a word character, and rejects every other string with
FormatError; "ab1" and "ABCD" are among the rejected ones, while strings
such as "ABC." are accepted although they are not three uppercase letters
only. -/
theorem c2_symbol_format (nyse : List String) (db : DB) (s : String)
    (h1 : s ∉ nyse) (h2 : ∀ e ∈ db.enterprises, e.symbol ≠ s) :
    EnterpriseForm.validate_symbol nyse db s =
      (if symbolRegexMatch s then .ok () else .error .formatError) := by
  have hf : db.enterprises.find? (fun e => e.symbol == s) = none :=
    List.find?_eq_none.mpr (fun e he => by simpa using h2 e he)
  unfold EnterpriseForm.validate_symbol
  rw [if_neg h1, hf]
  simp

theorem c2_symbol_format_witness :
    EnterpriseForm.validate_symbol [] emptyDB "ABC" =
      (if symbolRegexMatch "ABC" then .ok () else .error .formatError) :=
  c2_symbol_format [] emptyDB "ABC" (by decide) (by intro e he; cases he)

/-! ### Claim C3: normalization of the values list -/

/-- C3: the values field splits the raw string on the separator, trims
each token, lower-cases, and removes case-insensitive duplicates keeping
the first occurrence, which is the pipeline the specification describes
(the code deduplicates before lower-casing, but the two pipelines agree on
every input); the example "Tech, tech, Finance" yields ["tech",
"finance"]; and the attached Length validator fails with LengthError
exactly when the resulting list has more than ten entries. -/
theorem c3_normalize_values_list (raw separator : String) (data : List String) :
    ValueListField.process_formdata raw separator = normalize_values_list_spec raw separator ∧
    ValueListField.process_formdata "Tech, tech, Finance" "," = ["tech", "finance"] ∧
    (valuesLengthValidator data = .error .lengthError ↔ 10 < data.length) := by
  refine ⟨?_, by decide, ?_⟩
  · unfold ValueListField.process_formdata normalize_values_list_spec
      ValueListField.remove_duplicates
    exact remove_duplicates_go_map_lower _ []
  · constructor
    · intro hc
      by_contra hlen
      have h10 : data.length ≤ 10 := by omega
      simp [valuesLengthValidator, h10] at hc
    · intro hlen
      have h10 : ¬ data.length ≤ 10 := by omega
      simp [valuesLengthValidator, h10]

theorem c3_normalize_values_list_witness :
    ValueListField.process_formdata "Tech, tech, Finance" ","
      = normalize_values_list_spec "Tech, tech, Finance" "," ∧
    ValueListField.process_formdata "Tech, tech, Finance" "," = ["tech", "finance"] ∧
    (valuesLengthValidator ["a", "b", "c", "d", "e", "f", "g", "h", "i", "j", "k"]
        = .error .lengthError ↔
      10 < (["a", "b", "c", "d", "e", "f", "g", "h", "i", "j", "k"] : List String).length) :=
  c3_normalize_values_list "Tech, tech, Finance" ","
    ["a", "b", "c", "d", "e", "f", "g", "h", "i", "j", "k"]

/-! ### Claim C4: order of the symbol checks -/

/-- C4: the symbol validation runs its checks in a fixed order, membership
in the external exchange-symbol set first, then duplication against
existing enterprises, then the format pattern, so when several checks
would fail the reported error is the one this order determines. -/
theorem c4_symbol_check_order (nyse : List String) (db : DB) (s : String) :
    (s ∈ nyse → EnterpriseForm.validate_symbol nyse db s = .error .externalConflict) ∧
    (s ∉ nyse → (db.enterprises.find? (fun e => e.symbol == s)).isSome = true →
      EnterpriseForm.validate_symbol nyse db s = .error .duplicateValue) ∧
    (s ∉ nyse → (db.enterprises.find? (fun e => e.symbol == s)).isSome = false →
      symbolRegexMatch s = false →
      EnterpriseForm.validate_symbol nyse db s = .error .formatError) := by
  unfold EnterpriseForm.validate_symbol
  refine ⟨fun h => by rw [if_pos h], fun h1 h2 => ?_, fun h1 h2 h3 => ?_⟩
  · rw [if_neg h1, if_pos h2]
  · rw [if_neg h1, if_neg (by simp [h2]), if_neg (by simp [h3])]

def c4_enterprise : Enterprise :=
  { enterprise_id := 1, name := "Acme", description := "d", symbol := "AA.",
    timestamp := 0, user_id := 1, values := [] }

def c4_db : DB := { users := [], enterprises := [c4_enterprise], values := [] }

theorem c4_symbol_check_order_witness :
    EnterpriseForm.validate_symbol ["AA."] c4_db "AA." = .error .externalConflict ∧
    EnterpriseForm.validate_symbol [] c4_db "AA." = .error .duplicateValue ∧
    EnterpriseForm.validate_symbol [] c4_db "ab1" = .error .formatError :=
  ⟨(c4_symbol_check_order ["AA."] c4_db "AA.").1 (by decide),
   (c4_symbol_check_order [] c4_db "AA.").2.1 (by decide) (by decide),
   (c4_symbol_check_order [] c4_db "ab1").2.2 (by decide) (by decide) (by decide)⟩

/-! ### Claim C5: no-op edits pass the self-excluded checks -/

/-- C5: an edit submission whose name equals the original name of the
enterprise and whose symbol equals its original symbol never fails the
uniqueness, external-conflict or format checks: both edit validators
accept it, for every database and reference set. -/
theorem c5_noop_edit_accepted (nyse : List String) (db : DB)
    (original_name original_symbol : String) :
    EditEnterpriseForm.validate_name db original_name original_name = .ok () ∧
    EditEnterpriseForm.validate_symbol nyse db original_symbol original_symbol = .ok () := by
  unfold EditEnterpriseForm.validate_name EditEnterpriseForm.validate_symbol
  constructor <;> simp

/-! ### Claim C1: the enterprise listing ignores ownership -/

def c1_alice : User :=
  { user_id := 1, username := "alice", email := "alice@example.com",
    password_hash := "h1", about_me := "", last_seen := 0 }

def c1_bob : User :=
  { user_id := 2, username := "bob", email := "bob@example.com",
    password_hash := "h2", about_me := "", last_seen := 0 }

/-- Enterprise number i of bob, with timestamp i. -/
def c1_ent (i : Nat) : Enterprise :=
  { enterprise_id := i, name := "E" ++ toString i, description := "d",
    symbol := "S" ++ toString i, timestamp := i, user_id := 2, values := [] }

def c1_db : DB :=
  { users := [c1_alice, c1_bob],
    enterprises := [c1_ent 1, c1_ent 2, c1_ent 3, c1_ent 4, c1_ent 5, c1_ent 6, c1_ent 7],
    values := [] }

/-- C1 (code bug, evaluated at the failing input): User.get_all_enterprises
queries the enterprises table with no filter on the owning user, against
its own docstring, so in a database where alice owns nothing and bob owns
seven enterprises the listing for alice holds all seven of the rows of
bob, every one owned by somebody else; the pagination arithmetic itself
behaves as described, page one of that listing holds the three newest
rows, page three holds only the oldest one and reports no next page. -/
theorem c1_list_not_restricted_to_owner :
    User.get_all_enterprises c1_db c1_alice
      = [c1_ent 7, c1_ent 6, c1_ent 5, c1_ent 4, c1_ent 3, c1_ent 2, c1_ent 1] ∧
    (∀ e ∈ User.get_all_enterprises c1_db c1_alice, e.user_id ≠ c1_alice.user_id) ∧
    (paginate (User.get_all_enterprises c1_db c1_alice) 1 3).items
      = [c1_ent 7, c1_ent 6, c1_ent 5] ∧
    (paginate (User.get_all_enterprises c1_db c1_alice) 3 3).items = [c1_ent 1] ∧
    (paginate (User.get_all_enterprises c1_db c1_alice) 3 3).has_next = false := by
  decide

/-! ### Claim C6: failed logins are indistinguishable -/

/-- C6: every failed login attempt, whether the username does not exist or
the user exists and the password check fails, flashes the one generic
invalid-credentials message and leaves the database unchanged, so the
failure does not reveal which field was wrong. -/
theorem c6_login_failure_generic (db : DB) (checkHash : String → String → Bool)
    (username password : String)
    (h : (login db checkHash username password).1.logged_in = none) :
    (login db checkHash username password).1.flash = some invalidCredentialsMessage ∧
    (login db checkHash username password).2 = db := by
  cases hf : db.users.find? (fun u => u.username == username) with
  | none => exact ⟨by simp [login, hf], by simp [login, hf]⟩
  | some u =>
    by_cases hc : checkHash u.password_hash password = true
    · simp [login, hf, hc] at h
    · exact ⟨by simp [login, hf, hc], by simp [login, hf, hc]⟩

def c6_db : DB :=
  { users := [{ user_id := 1, username := "alice", email := "alice@example.com",
                password_hash := "h1", about_me := "", last_seen := 0 }],
    enterprises := [], values := [] }

/-- Hash check that rejects everything, so the alice attempt below is a
wrong-password failure. -/
def c6_checkHash : String → String → Bool := fun _ _ => false

theorem c6_login_failure_generic_witness :
    (login c6_db c6_checkHash "alice" "wrong").1.flash = some invalidCredentialsMessage ∧
    (login c6_db c6_checkHash "alice" "wrong").2 = c6_db :=
  c6_login_failure_generic c6_db c6_checkHash "alice" "wrong" (by decide)

/-! ### Claim C8: missing edit and delete targets fault -/

/-- C8: when no stored enterprise carries the requested name, the lookup of
the edit handler and of the delete handler yields nothing and the next
line dereferences it, so both handlers fault with the undefined-attribute
error rather than returning a not-found result. -/
theorem c8_missing_target_faults (nyse : List String) (db : DB) (cu : User)
    (ename nm ds sym : String)
    (h : ∀ e ∈ db.enterprises, e.name ≠ ename) :
    edit_enterprise nyse db cu ename nm ds sym = .error .attributeError ∧
    delete_enterprise db cu ename = .error .attributeError := by
  have hf : db.enterprises.find? (fun e => e.name == ename) = none :=
    List.find?_eq_none.mpr (fun e he => by simpa using h e he)
  constructor <;> simp [edit_enterprise, delete_enterprise, hf]

def c8_user : User :=
  { user_id := 3, username := "carol", email := "carol@example.com",
    password_hash := "h3", about_me := "", last_seen := 0 }

theorem c8_missing_target_faults_witness :
    edit_enterprise [] emptyDB c8_user "Ghost" "N" "D" "AAA" = .error .attributeError ∧
    delete_enterprise emptyDB c8_user "Ghost" = .error .attributeError :=
  c8_missing_target_faults [] emptyDB c8_user "Ghost" "N" "D" "AAA"
    (by intro e he; cases he)

/-! ### Claim C7: lazy creation and reuse of value rows -/

/-- Names of the value rows the creation loop makes: exactly the submitted
names whose lookup in the pre-existing table finds nothing. -/
theorem resolveValues_created_names (table : List Value) (now : Nat) :
    ∀ (names : List String) (nid : Nat),
    ((resolveValues table nid now names).1).map Value.name
      = names.filter (fun n => (table.find? (fun v => v.name == n)).isNone) := by
  intro names
  induction names with
  | nil => intro nid; rfl
  | cons n ns ih =>
    intro nid
    cases hf : table.find? (fun v => v.name == n) with
    | some v => simp [resolveValues, hf, List.filter_cons, ih]
    | none => simp [resolveValues, hf, List.filter_cons, ih]

/-- A submitted name whose lookup finds a row contributes the id of that
row to the association list. -/
theorem resolveValues_reuses (table : List Value) (now : Nat) :
    ∀ (names : List String) (nid : Nat) (n : String) (v : Value),
    n ∈ names → table.find? (fun w => w.name == n) = some v →
    v.value_id ∈ (resolveValues table nid now names).2.1 := by
  intro names
  induction names with
  | nil => intro nid n v hn _; cases hn
  | cons m ms ih =>
    intro nid n v hn hf
    cases hm : table.find? (fun w => w.name == m) with
    | some w =>
      simp only [resolveValues, hm]
      rcases List.mem_cons.mp hn with h | h
      · subst h
        rw [hm] at hf
        cases hf
        exact List.mem_cons_self _ _
      · exact List.mem_cons_of_mem _ (ih nid n v h hf)
    | none =>
      simp only [resolveValues, hm]
      rcases List.mem_cons.mp hn with h | h
      · subst h
        rw [hm] at hf
        cases hf
      · exact List.mem_cons_of_mem _ (ih (nid + 1) n v h hf)

/-- C7: enterprise creation attaches every submitted value name that
already has a row by reusing that row (its id goes into the association
list), creates a row for exactly the names not yet present (the created
names are precisely the submitted names whose lookup finds nothing), and,
when the submitted names are duplicate-free and the table names were
unique before, no two value rows share a name afterwards. -/
theorem c7_values_created_lazily (db : DB) (cu : User) (nm ds sym : String)
    (names : List String) (eid now nid : Nat)
    (hnames : names.Nodup)
    (htable : (db.values.map Value.name).Nodup) :
    ((index_create db cu nm ds sym names eid now nid).values.map Value.name
      = db.values.map Value.name
        ++ names.filter (fun n => (db.values.find? (fun v => v.name == n)).isNone)) ∧
    ((index_create db cu nm ds sym names eid now nid).values.map Value.name).Nodup ∧
    (∀ n ∈ names, ∀ v : Value, db.values.find? (fun w => w.name == n) = some v →
      v.value_id ∈ (resolveValues db.values nid now names).2.1) := by
  have hmap : (index_create db cu nm ds sym names eid now nid).values.map Value.name
      = db.values.map Value.name
        ++ names.filter (fun n => (db.values.find? (fun v => v.name == n)).isNone) := by
    unfold index_create
    rw [List.map_append, resolveValues_created_names]
  refine ⟨hmap, ?_, fun n hn v hf => resolveValues_reuses db.values now names nid n v hn hf⟩
  rw [hmap]
  rw [List.nodup_append]
  refine ⟨htable, hnames.filter _, ?_⟩
  intro a ha hafilter
  have h2 := (List.mem_filter.mp hafilter).2
  have hnone : db.values.find? (fun v => v.name == a) = none :=
    Option.isNone_iff_eq_none.mp (by simpa using h2)
  have hall := List.find?_eq_none.mp hnone
  rcases List.mem_map.mp ha with ⟨v, hv, rfl⟩
  exact hall v hv (by simp)

def c7_user : User :=
  { user_id := 4, username := "dave", email := "dave@example.com",
    password_hash := "h4", about_me := "", last_seen := 0 }

def c7_alpha : Value := { value_id := 1, name := "alpha", timestamp := 0 }

def c7_db : DB := { users := [c7_user], enterprises := [], values := [c7_alpha] }

theorem c7_values_created_lazily_witness :
    ((index_create c7_db c7_user "Acme" "d" "ACM" ["alpha", "beta"] 9 5 2).values.map Value.name
      = c7_db.values.map Value.name
        ++ ["alpha", "beta"].filter
            (fun n => (c7_db.values.find? (fun v => v.name == n)).isNone)) ∧
    ((index_create c7_db c7_user "Acme" "d" "ACM" ["alpha", "beta"] 9 5 2).values.map
        Value.name).Nodup ∧
    (∀ n ∈ ["alpha", "beta"], ∀ v : Value,
      c7_db.values.find? (fun w => w.name == n) = some v →
      v.value_id ∈ (resolveValues c7_db.values 2 5 ["alpha", "beta"]).2.1) :=
  c7_values_created_lazily c7_db c7_user "Acme" "d" "ACM" ["alpha", "beta"] 9 5 2
    (by decide) (by decide)

/-! ### Claim C9: the edit handler only touches the editable fields -/

/-- Relation between an enterprise row before and after an operation that
may change only its name, description and symbol: the id, the creation
timestamp, the owning user and the attached values are the same. -/
def preservesFrame (e e2 : Enterprise) : Prop :=
  e2.enterprise_id = e.enterprise_id ∧ e2.timestamp = e.timestamp ∧
  e2.user_id = e.user_id ∧ e2.values = e.values

theorem forall₂_preservesFrame_refl : ∀ l : List Enterprise, List.Forall₂ preservesFrame l l
  | [] => .nil
  | _ :: es => .cons ⟨rfl, rfl, rfl, rfl⟩ (forall₂_preservesFrame_refl es)

theorem updateFirstBy_frame (p : Enterprise → Bool) (nm ds sym : String) :
    ∀ l : List Enterprise,
    List.Forall₂ preservesFrame l
      (updateFirstBy p (fun e => { e with name := nm, description := ds, symbol := sym }) l)
  | [] => .nil
  | e :: es => by
    unfold updateFirstBy
    by_cases hp : p e = true
    · rw [if_pos hp]
      exact .cons ⟨rfl, rfl, rfl, rfl⟩ (forall₂_preservesFrame_refl es)
    · rw [if_neg hp]
      exact .cons ⟨rfl, rfl, rfl, rfl⟩ (updateFirstBy_frame p nm ds sym es)

/-- C9: a successful edit changes at most the name, description and symbol
of the target row: the users table and the values table are untouched, and
every enterprise row keeps its id, creation timestamp, owning user and
attached values list. -/
theorem c9_edit_frame (nyse : List String) (db : DB) (cu : User)
    (ename nm ds sym : String) (db2 : DB)
    (h : edit_enterprise nyse db cu ename nm ds sym = .ok (db2, true)) :
    db2.users = db.users ∧ db2.values = db.values ∧
    List.Forall₂ preservesFrame db.enterprises db2.enterprises := by
  unfold edit_enterprise at h
  cases hf : db.enterprises.find? (fun e => e.name == ename) with
  | none => simp [hf] at h
  | some ce =>
    simp only [hf] at h
    by_cases hv : EditEnterpriseForm.validate nyse db ce.name ce.symbol nm ds sym = true
    · rw [if_pos hv] at h
      simp only [Except.ok.injEq, Prod.mk.injEq] at h
      obtain ⟨hdb, -⟩ := h
      subst hdb
      exact ⟨rfl, rfl, updateFirstBy_frame _ nm ds sym db.enterprises⟩
    · rw [if_neg hv] at h
      simp at h

def c9_user : User :=
  { user_id := 5, username := "erin", email := "erin@example.com",
    password_hash := "h5", about_me := "", last_seen := 0 }

def c9_old : Enterprise :=
  { enterprise_id := 7, name := "OldName", description := "olddesc", symbol := "AAA",
    timestamp := 3, user_id := 5, values := [4] }

def c9_new : Enterprise :=
  { enterprise_id := 7, name := "NewName", description := "newdesc", symbol := "BBB",
    timestamp := 3, user_id := 5, values := [4] }

def c9_db : DB := { users := [c9_user], enterprises := [c9_old], values := [] }

def c9_db2 : DB := { users := [c9_user], enterprises := [c9_new], values := [] }

theorem c9_edit_frame_witness :
    c9_db2.users = c9_db.users ∧ c9_db2.values = c9_db.values ∧
    List.Forall₂ preservesFrame c9_db.enterprises c9_db2.enterprises :=
  c9_edit_frame [] c9_db c9_user "OldName" "NewName" "newdesc" "BBB" c9_db2 (by rfl)

/-! ### Claim C10: edit and delete check authentication only, not ownership -/

/-- C10: the edit and delete handlers require only that some user is
authenticated: their outcome does not depend on which user makes the
request, and on a target owned by a different user the delete removes the
row and the edit proceeds rather than being refused. -/
theorem c10_no_ownership_check (nyse : List String) (db : DB) (u u2 : User)
    (ename nm ds sym : String) (e : Enterprise)
    (hfind : db.enterprises.find? (fun x => x.name == ename) = some e)
    (_hown : e.user_id ≠ u.user_id) :
    edit_enterprise nyse db u ename nm ds sym = edit_enterprise nyse db u2 ename nm ds sym ∧
    delete_enterprise db u ename = delete_enterprise db u2 ename ∧
    (∃ db2, delete_enterprise db u ename = .ok db2 ∧
      db2.enterprises.length + 1 = db.enterprises.length) ∧
    (∃ r, edit_enterprise nyse db u ename nm ds sym = .ok r) := by
  refine ⟨rfl, rfl, ?_, ?_⟩
  · have hdel : delete_enterprise db u ename
        = .ok { db with enterprises := db.enterprises.eraseP (fun x => x.name == ename) } := by
      unfold delete_enterprise
      simp only [hfind]
    refine ⟨_, hdel, ?_⟩
    have hmem : e ∈ db.enterprises := List.mem_of_find?_eq_some hfind
    have hp := List.find?_some hfind
    have hlen := @List.length_eraseP_of_mem Enterprise db.enterprises e
      (fun x => x.name == ename) hmem hp
    have hpos : 0 < db.enterprises.length := List.length_pos_of_mem hmem
    show (db.enterprises.eraseP (fun x => x.name == ename)).length + 1
        = db.enterprises.length
    omega
  · unfold edit_enterprise
    simp only [hfind]
    by_cases hv : EditEnterpriseForm.validate nyse db e.name e.symbol nm ds sym = true
    · exact ⟨_, by rw [if_pos hv]⟩
    · exact ⟨_, by rw [if_neg hv]⟩

def c10_requester : User :=
  { user_id := 6, username := "frank", email := "frank@example.com",
    password_hash := "h6", about_me := "", last_seen := 0 }

def c10_other : User :=
  { user_id := 7, username := "grace", email := "grace@example.com",
    password_hash := "h7", about_me := "", last_seen := 0 }

/-- Enterprise owned by grace, which frank edits and deletes. -/
def c10_ent : Enterprise :=
  { enterprise_id := 8, name := "Foreign", description := "d", symbol := "FRN",
    timestamp := 1, user_id := 7, values := [] }

def c10_db : DB :=
  { users := [c10_requester, c10_other], enterprises := [c10_ent], values := [] }

theorem c10_no_ownership_check_witness :
    edit_enterprise [] c10_db c10_requester "Foreign" "N" "D" "AAA"
      = edit_enterprise [] c10_db c10_other "Foreign" "N" "D" "AAA" ∧
    delete_enterprise c10_db c10_requester "Foreign"
      = delete_enterprise c10_db c10_other "Foreign" ∧
    (∃ db2, delete_enterprise c10_db c10_requester "Foreign" = .ok db2 ∧
      db2.enterprises.length + 1 = c10_db.enterprises.length) ∧
    (∃ r, edit_enterprise [] c10_db c10_requester "Foreign" "N" "D" "AAA" = .ok r) :=
  c10_no_ownership_check [] c10_db c10_requester c10_other "Foreign" "N" "D" "AAA" c10_ent
    (by decide) (by decide)

end Ehecatl
